import Mathlib

/-
Verification of the symmetry operators of the Axis Vertex Select add-on
(src/axis_vertex_select.py).

Embedding choices:
* Vertex coordinates are rationals (the Python code computes with floats,
  i.e. real-valued coordinates; the algorithms use only ring operations,
  absolute values and order comparisons, so ℚ is an exact executable model).
* The host object's world transform (obj.matrix_world) is taken to be the
  identity, so local and world coordinates coincide.  Every operator reads
  positions as `obj.matrix_world @ v.co` and writes them back through the
  inverse matrix, so all algorithmic content lives in world space.
* A mesh is a list of vertices, each carrying a position `co` and a
  selection flag `select`, indexed by position in the list (the stable
  vertex index of the mesh).
* The Python code compares Euclidean distances `sqrt(s)` against each other
  and against the (positive, per the FloatProperty `min=0.00001`) threshold.
  Since `sqrt` is strictly monotone on nonnegative reals, the embedding
  compares the squared quantities: `sqrt s < sqrt s'` iff `s < s'`, and
  `sqrt s > t` iff `s > t*t` for `t ≥ 0`.
* The KDTree nearest-neighbor query `kd.find` of OBJECT_OT_CheckSymmetry
  returns the distance to the closest inserted point (`None` on an empty
  tree); it is modelled as the minimum of the (squared) distances to all
  points of the mesh.
-/

structure Vec3 where
  x : ℚ
  y : ℚ
  z : ℚ
deriving DecidableEq, Repr

inductive Axis
  | X
  | Y
  | Z
deriving DecidableEq, Repr

/-- Component read `co[axis_idx]`, with `axis_idx = {'X':0,'Y':1,'Z':2}[sym_axis]`. -/
def Vec3.get : Vec3 → Axis → ℚ
  | p, Axis.X => p.x
  | p, Axis.Y => p.y
  | p, Axis.Z => p.z

/-- Component write `co[axis_idx] = a`. -/
def Vec3.set : Vec3 → Axis → ℚ → Vec3
  | p, Axis.X, a => ⟨a, p.y, p.z⟩
  | p, Axis.Y, a => ⟨p.x, a, p.z⟩
  | p, Axis.Z, a => ⟨p.x, p.y, a⟩

/-- The axis name string used in report messages (`props.sym_axis`). -/
def axisName : Axis → String
  | Axis.X => "X"
  | Axis.Y => "Y"
  | Axis.Z => "Z"

/-- `mirrored_co = co.copy(); mirrored_co[axis_idx] *= -1`. -/
def mirror (ax : Axis) (p : Vec3) : Vec3 :=
  p.set ax (-(p.get ax))

/-- Squared Euclidean distance (the code's `sum (diff*diff)`; note
`abs d * abs d = d * d`). -/
def distSq (p q : Vec3) : ℚ :=
  (p.x - q.x) * (p.x - q.x) + (p.y - q.y) * (p.y - q.y) + (p.z - q.z) * (p.z - q.z)

/-- A mesh vertex: position plus selection flag. -/
structure Vertex where
  co : Vec3
  select : Bool
deriving DecidableEq, Repr

/-- Default vertex used only as the `List.getD` fallback. -/
def vdefault : Vertex := ⟨⟨0, 0, 0⟩, false⟩

/-- Return value of a Blender operator's `execute`. -/
inductive OpStatus
  | FINISHED
  | CANCELLED
deriving DecidableEq, Repr

/-- Squared distance from `target` to the nearest of `pts` (the
`kd.find` query of Check Symmetry; `none` iff the tree is empty). -/
def minDistSq (target : Vec3) : List Vec3 → Option ℚ
  | [] => none
  | q :: rest =>
    match minDistSq target rest with
    | none => some (distSq target q)
    | some d => some (min (distSq target q) d)

/-- Per-vertex classification of OBJECT_OT_CheckSymmetry.execute:
skip (symmetric) when `|ax_val| <= threshold`; otherwise asymmetric iff the
nearest vertex to the mirrored position is missing or farther than the
threshold (`dist is None or dist > threshold`, in squared form). -/
def asymmetricB (ax : Axis) (t : ℚ) (pts : List Vec3) (p : Vec3) : Bool :=
  if |p.get ax| ≤ t then false
  else
    match minDistSq (mirror ax p) pts with
    | none => true
    | some d => decide (t * t < d)

/-- OBJECT_OT_CheckSymmetry.execute on the mesh: deselects everything, then
selects exactly the vertices classified asymmetric.  Positions are read
(for the KDTree and the queries) but never written. -/
def checkSymmetry (ax : Axis) (t : ℚ) (vs : List Vertex) : List Vertex :=
  let pts := vs.map Vertex.co
  vs.map (fun v => ⟨v.co, asymmetricB ax t pts v.co⟩)

/-- OBJECT_OT_CheckSymmetry.execute including its report: warning with the
asymmetric count when `asymmetric_indices` is nonempty, else the
fully-symmetric info message. -/
def checkSymmetryOp (ax : Axis) (t : ℚ) (vs : List Vertex) :
    OpStatus × String × List Vertex :=
  let out := checkSymmetry ax t vs
  let count := List.countP Vertex.select out
  if count ≠ 0 then
    (OpStatus.FINISHED,
     "Asymmetric vertices found: " ++ toString count ++ " vertex(es) selected.",
     out)
  else
    (OpStatus.FINISHED,
     "Model is fully symmetric on the " ++ axisName ax ++ " axis.",
     out)

/-- The candidate filter of the inner loop of OBJECT_OT_SnapToSymmetry:
reject `other_vert` when it is the selected vertex itself or selected, when
`sel[axis] * other[axis] >= 0`, or when some per-axis difference from the
mirrored position exceeds the threshold; otherwise return the squared
Euclidean distance to the mirrored position. -/
def axisOkDistSq (t : ℚ) (m q : Vec3) : Option ℚ :=
  if |m.x - q.x| > t then none
  else if |m.y - q.y| > t then none
  else if |m.z - q.z| > t then none
  else some (distSq m q)

/-- One step of the inner loop over `all_verts`: either `continue` (keep the
current best) or replace the best when the new distance is strictly
smaller (`distance < min_distance`; `none` plays the role of the initial
`min_distance = inf`, `closest_vert = None`). -/
def stepCand (t : ℚ) (pAx : ℚ) (ax : Axis) (m : Vec3) (i : Nat)
    (best : Option (ℚ × Vec3)) (jo : Nat × Vertex) : Option (ℚ × Vec3) :=
  if jo.1 = i ∨ jo.2.select = true then best
  else if 0 ≤ pAx * (jo.2.co.get ax) then best
  else
    match axisOkDistSq t m jo.2.co with
    | none => best
    | some d =>
      match best with
      | none => some (d, jo.2.co)
      | some b => if d < b.1 then some (d, jo.2.co) else some b

/-- The inner loop of OBJECT_OT_SnapToSymmetry over the (indexed) vertex
list, threading the best candidate found so far. -/
def scanCandidates (t : ℚ) (pAx : ℚ) (ax : Axis) (m : Vec3) (i : Nat)
    (l : List (Nat × Vertex)) (b : Option (ℚ × Vec3)) : Option (ℚ × Vec3) :=
  l.foldl (stepCand t pAx ax m i) b

/-- Processing of one selected vertex (index `i`) of
OBJECT_OT_SnapToSymmetry: scan all vertices; on a match write the
candidate's position with the axis coordinate negated, and report whether a
match was found. -/
def snapOne (ax : Axis) (t : ℚ) (cur : List Vertex) (i : Nat) :
    List Vertex × Bool :=
  match cur[i]? with
  | none => (cur, false)
  | some v =>
    match scanCandidates t (v.co.get ax) ax (mirror ax v.co) i cur.enum none with
    | none => (cur, false)
    | some dq => (cur.set i ⟨Vec3.set dq.2 ax (-(Vec3.get dq.2 ax)), v.select⟩, true)

/-- Indices of the selected vertices
(`selected_verts = [v for v in bm.verts if v.select]`). -/
def selIdxs (vs : List Vertex) : List Nat :=
  (vs.enum.filter (fun jv => jv.2.select)).map Prod.fst

/-- The outer loop of OBJECT_OT_SnapToSymmetry over the selected vertices,
threading the mesh state and the matched/unmatched counters. -/
def snapLoop (ax : Axis) (t : ℚ) :
    List Nat → List Vertex × Nat × Nat → List Vertex × Nat × Nat
  | [], st => st
  | i :: rest, st =>
    let r := snapOne ax t st.1 i
    if r.2 then snapLoop ax t rest (r.1, st.2.1 + 1, st.2.2)
    else snapLoop ax t rest (r.1, st.2.1, st.2.2 + 1)

/-- OBJECT_OT_SnapToSymmetry.execute on the mesh (mesh plus the
`matched_count` and `unmatched_count` counters). -/
def snapToSymmetry (ax : Axis) (t : ℚ) (vs : List Vertex) :
    List Vertex × Nat × Nat :=
  snapLoop ax t (selIdxs vs) (vs, 0, 0)

/-- OBJECT_OT_SnapToSymmetry.execute including the empty-selection guard and
the final report message. -/
def snapToSymmetryOp (ax : Axis) (t : ℚ) (vs : List Vertex) :
    OpStatus × String × List Vertex :=
  if selIdxs vs = [] then (OpStatus.CANCELLED, "No vertices selected!", vs)
  else
    let r := snapToSymmetry ax t vs
    (OpStatus.FINISHED,
     "Snapped " ++ toString r.2.1 ++ " vertices. " ++ toString r.2.2 ++
       " vertices had no match within threshold.",
     r.1)

/-- OBJECT_OT_SnapToMiddle.execute on the mesh: every selected vertex gets
its axis coordinate set to 0. -/
def snapToMiddle (ax : Axis) (vs : List Vertex) : List Vertex :=
  vs.map (fun v => if v.select then ⟨v.co.set ax 0, v.select⟩ else v)

/-- OBJECT_OT_SnapToMiddle.execute including the empty-selection guard and
the report message (`snapped_count` is the number of selected vertices). -/
def snapToMiddleOp (ax : Axis) (vs : List Vertex) :
    OpStatus × String × List Vertex :=
  if selIdxs vs = [] then (OpStatus.CANCELLED, "No vertices selected!", vs)
  else
    (OpStatus.FINISHED,
     "Snapped " ++ toString (selIdxs vs).length ++ " vertices to middle (axis " ++
       axisName ax ++ ").",
     snapToMiddle ax vs)

/-- Spec-side asymmetry predicate, written from the specification's words:
the vertex is farther than the threshold from the mirror plane, and every
vertex of the mesh is farther than the threshold from its mirrored
position (equivalently: the nearest one is, or there is none). -/
def specAsymmetric (ax : Axis) (t : ℚ) (pts : List Vec3) (p : Vec3) : Prop :=
  t < |p.get ax| ∧ ∀ q ∈ pts, t * t < distSq (mirror ax p) q

/-- Overwrite every selection flag with an arbitrary prior selection `f`
(used to state that Check Symmetry ignores the prior selection). -/
def reselect (f : Nat → Bool) (vs : List Vertex) : List Vertex :=
  vs.enum.map (fun jv => ⟨jv.2.co, f jv.1⟩)

/-- The candidate filter of `stepCand` as a partial map: `some (d, pos)`
exactly when the vertex passes all gates, with `d` its squared distance to
the mirrored position. -/
def candOf (t : ℚ) (pAx : ℚ) (ax : Axis) (m : Vec3) (i : Nat)
    (jo : Nat × Vertex) : Option (ℚ × Vec3) :=
  if jo.1 = i ∨ jo.2.select = true then none
  else if 0 ≤ pAx * (jo.2.co.get ax) then none
  else (axisOkDistSq t m jo.2.co).map (fun d => (d, jo.2.co))

/-- All accepted candidates of the inner loop, in iteration order. -/
def acceptedList (t : ℚ) (pAx : ℚ) (ax : Axis) (m : Vec3) (i : Nat)
    (l : List (Nat × Vertex)) : List (ℚ × Vec3) :=
  l.filterMap (candOf t pAx ax m i)

/-- Keep the entry with the strictly smaller key; on a tie keep the one
already held (the code's `distance < min_distance` update). -/
def minStep (best : Option (ℚ × Vec3)) (e : ℚ × Vec3) : Option (ℚ × Vec3) :=
  match best with
  | none => some e
  | some b => if e.1 < b.1 then some e else some b

/-- First minimum of a list of keyed entries, starting from `b`. -/
def chooseFirstMin (b : Option (ℚ × Vec3)) (l : List (ℚ × Vec3)) :
    Option (ℚ × Vec3) :=
  l.foldl minStep b

/-- The inner-loop scan for vertex `i`, run against a fixed mesh `vs`. -/
def scanOn (ax : Axis) (t : ℚ) (vs : List Vertex) (i : Nat) :
    Option (ℚ × Vec3) :=
  let p := (vs.getD i vdefault).co
  scanCandidates t (p.get ax) ax (mirror ax p) i vs.enum none

/-- The vertex that index `i` holds after Snap to Symmetry, predicted from
the initial mesh alone. -/
def snapResultAt (ax : Axis) (t : ℚ) (vs : List Vertex) (i : Nat) : Vertex :=
  let v := vs.getD i vdefault
  match scanOn ax t vs i with
  | none => v
  | some dq => ⟨Vec3.set dq.2 ax (-(Vec3.get dq.2 ax)), v.select⟩

/-- Apply the predicted per-vertex updates at the indices of `l`. -/
def applyAll (ax : Axis) (t : ℚ) (vs : List Vertex) (c : List Vertex)
    (l : List Nat) : List Vertex :=
  l.foldl (fun c2 i => c2.set i (snapResultAt ax t vs i)) c

/-- Relation between a mid-run mesh state and the initial mesh: selection
flags agree everywhere, and unselected vertices are untouched. -/
def VRel (v w : Vertex) : Prop :=
  v.select = w.select ∧ (w.select = false → v.co = w.co)

/-- Two-vertex mesh: A(1,0,0) selected, B(-1,0,0) unselected. -/
def demoPair : List Vertex := [⟨⟨1, 0, 0⟩, true⟩, ⟨⟨-1, 0, 0⟩, false⟩]

/-- One selected vertex off the plane with no partner anywhere. -/
def demoLone : List Vertex := [⟨⟨1, 0, 0⟩, true⟩]

/-- A selected vertex exactly on the mirror plane, plus another vertex. -/
def demoPlane : List Vertex := [⟨⟨0, 2, 0⟩, true⟩, ⟨⟨0, -2, 0⟩, false⟩]

/-- The nearest-neighbor query fails only on an empty point set. -/
theorem minDistSq_eq_none_iff (target : Vec3) (pts : List Vec3) :
    minDistSq target pts = none ↔ pts = [] := by
  cases pts with
  | nil => simp [minDistSq]
  | cons q rest =>
    simp only [minDistSq]
    cases minDistSq target rest <;> simp

/-- The nearest distance is a lower bound for the distance to any point. -/
theorem minDistSq_le (target q : Vec3) (pts : List Vec3) (hq : q ∈ pts) :
    ∃ d, minDistSq target pts = some d ∧ d ≤ distSq target q := by
  induction pts with
  | nil => cases hq
  | cons r rest ih =>
    rcases List.mem_cons.mp hq with h | h
    · subst h
      cases hmr : minDistSq target rest with
      | none => exact ⟨distSq target q, by simp [minDistSq, hmr], le_refl _⟩
      | some d =>
        exact ⟨min (distSq target q) d, by simp [minDistSq, hmr], min_le_left _ _⟩
    · obtain ⟨d, hd, hle⟩ := ih h
      refine ⟨min (distSq target r) d, by simp [minDistSq, hd], ?_⟩
      exact le_trans (min_le_right _ _) hle

/-- The nearest distance is attained by some point of the set. -/
theorem minDistSq_mem (target : Vec3) (pts : List Vec3) (d : ℚ)
    (h : minDistSq target pts = some d) : ∃ q ∈ pts, d = distSq target q := by
  induction pts generalizing d with
  | nil => cases h
  | cons r rest ih =>
    simp only [minDistSq] at h
    cases hmr : minDistSq target rest with
    | none =>
      rw [hmr] at h
      exact ⟨r, List.mem_cons_self r rest, (Option.some.inj h).symm⟩
    | some d' =>
      rw [hmr] at h
      have hd : d = min (distSq target r) d' := (Option.some.inj h).symm
      rcases min_cases (distSq target r) d' with ⟨hmin, _⟩ | ⟨hmin, _⟩
      · exact ⟨r, List.mem_cons_self r rest, by rw [hd, hmin]⟩
      · obtain ⟨q, hqmem, hqd⟩ := ih d' hmr
        exact ⟨q, List.mem_cons_of_mem r hqmem, by rw [hd, hmin, hqd]⟩

/-- The per-vertex classification of Check Symmetry agrees with the
spec-side asymmetry predicate. -/
theorem asymmetricB_eq_true_iff (ax : Axis) (t : ℚ) (pts : List Vec3) (p : Vec3) :
    asymmetricB ax t pts p = true ↔ specAsymmetric ax t pts p := by
  unfold asymmetricB specAsymmetric
  by_cases h1 : |p.get ax| ≤ t
  · simp only [if_pos h1]
    constructor
    · intro h; cases h
    · rintro ⟨h2, -⟩; exact absurd h2 (not_lt.mpr h1)
  · simp only [if_neg h1]
    have hfar : t < |p.get ax| := not_le.mp h1
    cases hm : minDistSq (mirror ax p) pts with
    | none =>
      have hpts : pts = [] := (minDistSq_eq_none_iff _ _).mp hm
      subst hpts
      simp [hfar]
    | some d =>
      simp only [decide_eq_true_eq]
      constructor
      · intro hd
        refine ⟨hfar, fun q hq => ?_⟩
        obtain ⟨d', hd', hle⟩ := minDistSq_le (mirror ax p) q pts hq
        rw [hm] at hd'
        exact lt_of_lt_of_le hd (Option.some.inj hd' ▸ hle)
      · rintro ⟨-, hall⟩
        obtain ⟨q, hqmem, hqd⟩ := minDistSq_mem (mirror ax p) pts d hm
        exact hqd ▸ hall q hqmem

theorem checkSymmetry_length (ax : Axis) (t : ℚ) (vs : List Vertex) :
    (checkSymmetry ax t vs).length = vs.length := by
  simp [checkSymmetry]

theorem checkSymmetry_getElem? (ax : Axis) (t : ℚ) (vs : List Vertex) (i : Nat) :
    (checkSymmetry ax t vs)[i]? =
      (vs[i]?).map (fun v => ⟨v.co, asymmetricB ax t (vs.map Vertex.co) v.co⟩) := by
  simp [checkSymmetry, List.getElem?_map]

theorem reselect_enumFrom_map_co (f : Nat → Bool) (vs : List Vertex) :
    ∀ k : Nat,
      (List.map (fun jv => (⟨jv.2.co, f jv.1⟩ : Vertex)) (vs.enumFrom k)).map Vertex.co
        = vs.map Vertex.co := by
  induction vs with
  | nil => intro k; rfl
  | cons v rest ih => intro k; simp [List.enumFrom_cons, ih (k + 1), Function.comp]

theorem reselect_map_co (f : Nat → Bool) (vs : List Vertex) :
    (reselect f vs).map Vertex.co = vs.map Vertex.co := by
  unfold reselect
  exact reselect_enumFrom_map_co f vs 0

theorem reselect_getElem? (f : Nat → Bool) (vs : List Vertex) (i : Nat) :
    (reselect f vs)[i]? = (vs[i]?).map (fun v => ⟨v.co, f i⟩) := by
  unfold reselect
  rw [List.getElem?_map, List.getElem?_enum]
  cases vs[i]? <;> rfl

/-- Claim C1: Check Symmetry overwrites the prior selection entirely: the
resulting selection flag of a vertex is true exactly when the vertex is
asymmetric (off the plane by more than the threshold, with every vertex of
the mesh farther than the threshold from its mirrored position), however
the mesh was selected before the call (prior selection `f` is arbitrary and
absent from the right-hand side). -/
theorem check_symmetry_overwrites_selection (ax : Axis) (t : ℚ) (f : Nat → Bool)
    (vs : List Vertex) (i : Nat) (h : i < vs.length) :
    (checkSymmetry ax t (reselect f vs)).length = vs.length ∧
    (((checkSymmetry ax t (reselect f vs)).getD i vdefault).select = true ↔
      specAsymmetric ax t (vs.map Vertex.co) ((vs.getD i vdefault).co)) := by
  have hlen : (reselect f vs).length = vs.length := by
    unfold reselect; simp
  constructor
  · rw [checkSymmetry_length, hlen]
  · rw [List.getD_eq_getElem?_getD, checkSymmetry_getElem?, reselect_getElem?,
      reselect_map_co, List.getD_eq_getElem?_getD]
    cases hv : vs[i]? with
    | none =>
      exact absurd hv (by simp [List.getElem?_eq_some_iff, h])
    | some v =>
      simp only [Option.map_some, Option.getD_some]
      exact asymmetricB_eq_true_iff ax t (vs.map Vertex.co) v.co

theorem check_symmetry_overwrites_selection_witness :
    (0 : Nat) < demoPair.length ∧
    ((checkSymmetry Axis.X 1 (reselect (fun _ => true) demoPair)).length = demoPair.length ∧
     (((checkSymmetry Axis.X 1 (reselect (fun _ => true) demoPair)).getD 0 vdefault).select = true ↔
       specAsymmetric Axis.X 1 (demoPair.map Vertex.co) ((demoPair.getD 0 vdefault).co))) :=
  ⟨by simp [demoPair],
   check_symmetry_overwrites_selection Axis.X 1 (fun _ => true) demoPair 0 (by simp [demoPair])⟩

/-- Claim C5: a vertex whose mirror-axis coordinate has absolute value at
most the threshold is never selected as asymmetric by Check Symmetry,
whatever the rest of the mesh looks like. -/
theorem check_symmetry_plane_vertex_symmetric (ax : Axis) (t : ℚ)
    (vs : List Vertex) (i : Nat)
    (hnear : |(vs.getD i vdefault).co.get ax| ≤ t) :
    ((checkSymmetry ax t vs).getD i vdefault).select = false := by
  rw [List.getD_eq_getElem?_getD, checkSymmetry_getElem?]
  cases hv : vs[i]? with
  | none => rfl
  | some v =>
    rw [List.getD_eq_getElem?_getD, hv, Option.getD_some] at hnear
    rw [Option.map_some', Option.getD_some]
    unfold asymmetricB
    rw [if_pos hnear]

theorem check_symmetry_plane_vertex_symmetric_witness :
    |(demoPlane.getD 0 vdefault).co.get Axis.X| ≤ 1 ∧
    ((checkSymmetry Axis.X 1 demoPlane).getD 0 vdefault).select = false :=
  ⟨by norm_num [demoPlane, vdefault, Vec3.get],
   check_symmetry_plane_vertex_symmetric Axis.X 1 demoPlane 0
     (by norm_num [demoPlane, vdefault, Vec3.get])⟩

/-- Claim C10: Check Symmetry never moves a vertex: it preserves the length
of the mesh and the position of every vertex; only selection flags are
written. -/
theorem check_symmetry_preserves_positions (ax : Axis) (t : ℚ) (vs : List Vertex) :
    (checkSymmetry ax t vs).length = vs.length ∧
    ∀ i : Nat, ((checkSymmetry ax t vs).getD i vdefault).co = (vs.getD i vdefault).co := by
  refine ⟨checkSymmetry_length ax t vs, fun i => ?_⟩
  rw [List.getD_eq_getElem?_getD, checkSymmetry_getElem?, List.getD_eq_getElem?_getD]
  cases vs[i]? <;> rfl

/-- Claim C6: on a perfectly mirrored mesh (every vertex has an exact mirror
counterpart in the mesh) and any nonnegative threshold, Check Symmetry
selects zero asymmetric vertices and reports the distinct fully-symmetric
message. -/
theorem check_symmetry_mirrored_mesh (ax : Axis) (t : ℚ) (vs : List Vertex)
    (_ht : 0 ≤ t) (hmir : ∀ v ∈ vs, ∃ w ∈ vs, w.co = mirror ax v.co) :
    List.countP Vertex.select (checkSymmetry ax t vs) = 0 ∧
    (checkSymmetryOp ax t vs).2.1 =
      "Model is fully symmetric on the " ++ axisName ax ++ " axis." := by
  have hcount : List.countP Vertex.select (checkSymmetry ax t vs) = 0 := by
    rw [List.countP_eq_zero]
    intro a ha
    simp only [checkSymmetry, List.mem_map] at ha
    obtain ⟨v, hv, rfl⟩ := ha
    simp only [Bool.not_eq_true]
    cases habs : asymmetricB ax t (vs.map Vertex.co) v.co with
    | false => rfl
    | true =>
      exfalso
      rw [asymmetricB_eq_true_iff] at habs
      obtain ⟨-, hall⟩ := habs
      obtain ⟨w, hw, hwco⟩ := hmir v hv
      have hmem : mirror ax v.co ∈ vs.map Vertex.co :=
        List.mem_map.mpr ⟨w, hw, hwco⟩
      have h0 := hall _ hmem
      have hzero : distSq (mirror ax v.co) (mirror ax v.co) = 0 := by
        unfold distSq; ring
      rw [hzero] at h0
      nlinarith [mul_self_nonneg t]
  refine ⟨hcount, ?_⟩
  simp only [checkSymmetryOp, hcount]
  rfl

theorem check_symmetry_mirrored_mesh_witness :
    (0 : ℚ) ≤ 1 ∧
    (∀ v ∈ demoPair, ∃ w ∈ demoPair, w.co = mirror Axis.X v.co) ∧
    (List.countP Vertex.select (checkSymmetry Axis.X 1 demoPair) = 0 ∧
     (checkSymmetryOp Axis.X 1 demoPair).2.1 =
       "Model is fully symmetric on the " ++ axisName Axis.X ++ " axis.") :=
  ⟨by norm_num,
   by decide,
   check_symmetry_mirrored_mesh Axis.X 1 demoPair (by norm_num) (by decide)⟩

/-- One inner-loop step is the first-min step applied to the candidate
filter's output. -/
theorem stepCand_eq_minStep (t pAx : ℚ) (ax : Axis) (m : Vec3) (i : Nat)
    (b : Option (ℚ × Vec3)) (jo : Nat × Vertex) :
    stepCand t pAx ax m i b jo =
      match candOf t pAx ax m i jo with
      | none => b
      | some e => minStep b e := by
  unfold stepCand candOf minStep
  by_cases h1 : jo.1 = i ∨ jo.2.select = true
  · simp [h1]
  · simp only [if_neg h1]
    by_cases h2 : 0 ≤ pAx * (jo.2.co.get ax)
    · simp [h2]
    · simp only [if_neg h2]
      cases haok : axisOkDistSq t m jo.2.co with
      | none => rfl
      | some d => cases b <;> rfl

/-- The inner-loop scan equals the first minimum of the accepted-candidate
list. -/
theorem scanCandidates_eq_chooseFirstMin (t pAx : ℚ) (ax : Axis) (m : Vec3)
    (i : Nat) (l : List (Nat × Vertex)) :
    ∀ b, scanCandidates t pAx ax m i l b = chooseFirstMin b (acceptedList t pAx ax m i l) := by
  induction l with
  | nil => intro b; rfl
  | cons jo rest ih =>
    intro b
    show scanCandidates t pAx ax m i rest (stepCand t pAx ax m i b jo)
      = chooseFirstMin b (acceptedList t pAx ax m i (jo :: rest))
    rw [ih]
    cases hc : candOf t pAx ax m i jo with
    | none =>
      have hacc : acceptedList t pAx ax m i (jo :: rest) = acceptedList t pAx ax m i rest := by
        rw [acceptedList, acceptedList, List.filterMap_cons, hc]
      have hstep : stepCand t pAx ax m i b jo = b := by
        rw [stepCand_eq_minStep, hc]
      rw [hacc, hstep]
    | some e =>
      have hacc : acceptedList t pAx ax m i (jo :: rest) = e :: acceptedList t pAx ax m i rest := by
        rw [acceptedList, acceptedList, List.filterMap_cons, hc]
      have hstep : stepCand t pAx ax m i b jo = minStep b e := by
        rw [stepCand_eq_minStep, hc]
      rw [hacc, hstep]
      rfl

/-- Where the first minimum sits, relative to a running best `b`: either the
best is kept and nothing in the list beats it strictly, or the result is
the first strict improvement in the list. -/
theorem chooseFirstMin_some_spec (l : List (ℚ × Vec3)) :
    ∀ (b e : ℚ × Vec3), chooseFirstMin (some b) l = some e →
      (e = b ∧ ∀ e' ∈ l, b.1 ≤ e'.1) ∨
      (∃ pre suf, l = pre ++ e :: suf ∧ e.1 < b.1 ∧
        (∀ e' ∈ pre, e.1 < e'.1) ∧ (∀ e' ∈ suf, e.1 ≤ e'.1)) := by
  induction l with
  | nil =>
    intro b e h
    left
    exact ⟨(Option.some.inj h).symm, by simp⟩
  | cons x rest ih =>
    intro b e h
    rw [chooseFirstMin, List.foldl_cons] at h
    by_cases hx : x.1 < b.1
    · rw [show minStep (some b) x = some x by simp [minStep, hx]] at h
      rcases ih x e h with ⟨rfl, hall⟩ | ⟨pre, suf, hsplit, hlt, hpre, hsuf⟩
      · right
        exact ⟨[], rest, rfl, hx, by simp, hall⟩
      · right
        refine ⟨x :: pre, suf, by rw [hsplit]; rfl, lt_trans hlt hx, ?_, hsuf⟩
        intro e' he'
        rcases List.mem_cons.mp he' with rfl | he'
        · exact hlt
        · exact hpre e' he'
    · rw [show minStep (some b) x = some b by simp [minStep, hx]] at h
      rcases ih b e h with ⟨rfl, hall⟩ | ⟨pre, suf, hsplit, hlt, hpre, hsuf⟩
      · left
        refine ⟨rfl, ?_⟩
        intro e' he'
        rcases List.mem_cons.mp he' with rfl | he'
        · exact not_lt.mp hx
        · exact hall e' he'
      · right
        refine ⟨x :: pre, suf, by rw [hsplit]; rfl, hlt, ?_, hsuf⟩
        intro e' he'
        rcases List.mem_cons.mp he' with rfl | he'
        · exact lt_of_lt_of_le hlt (not_lt.mp hx)
        · exact hpre e' he'

/-- The scan's result, started from no candidate, is the first entry of the
accepted list attaining the minimum key. -/
theorem chooseFirstMin_none_spec (l : List (ℚ × Vec3)) (e : ℚ × Vec3)
    (h : chooseFirstMin none l = some e) :
    ∃ pre suf, l = pre ++ e :: suf ∧
      (∀ e' ∈ pre, e.1 < e'.1) ∧ (∀ e' ∈ suf, e.1 ≤ e'.1) := by
  cases l with
  | nil => cases h
  | cons x rest =>
    rw [chooseFirstMin, List.foldl_cons] at h
    rw [show minStep none x = some x from rfl] at h
    rcases chooseFirstMin_some_spec rest x e h with ⟨rfl, hall⟩ | ⟨pre, suf, hsplit, hlt, hpre, hsuf⟩
    · exact ⟨[], rest, rfl, by simp, hall⟩
    · refine ⟨x :: pre, suf, by rw [hsplit]; rfl, ?_, hsuf⟩
      intro e' he'
      rcases List.mem_cons.mp he' with rfl | he'
      · exact hlt
      · exact hpre e' he'

/-- An accepted candidate satisfies every gate of the inner loop, and its
key is the squared distance from the mirrored position. -/
theorem mem_acceptedList (t pAx : ℚ) (ax : Axis) (m : Vec3) (i : Nat)
    (l : List (Nat × Vertex)) (d : ℚ) (q : Vec3)
    (h : (d, q) ∈ acceptedList t pAx ax m i l) :
    ∃ jo ∈ l, jo.1 ≠ i ∧ jo.2.select = false ∧
      pAx * (jo.2.co.get ax) < 0 ∧
      axisOkDistSq t m jo.2.co = some d ∧ q = jo.2.co := by
  obtain ⟨jo, hjo, hc⟩ := List.mem_filterMap.mp h
  unfold candOf at hc
  by_cases h1 : jo.1 = i ∨ jo.2.select = true
  · rw [if_pos h1] at hc; cases hc
  · rw [if_neg h1] at hc
    by_cases h2 : 0 ≤ pAx * (jo.2.co.get ax)
    · rw [if_pos h2] at hc; cases hc
    · rw [if_neg h2] at hc
      cases haok : axisOkDistSq t m jo.2.co with
      | none => rw [haok] at hc; cases hc
      | some d' =>
        rw [haok, Option.map_some'] at hc
        obtain ⟨hd, hq⟩ := Prod.mk.inj (Option.some.inj hc)
        push_neg at h1
        exact ⟨jo, hjo, h1.1, Bool.not_eq_true _ ▸ h1.2, not_le.mp h2,
          by rw [haok, hd], hq.symm⟩

/-- What a successful per-axis gate means: the key is the squared distance
and every coordinate of the candidate is within the threshold of the
mirrored position. -/
theorem axisOkDistSq_some (t : ℚ) (m q : Vec3) (d : ℚ)
    (h : axisOkDistSq t m q = some d) :
    d = distSq m q ∧ ∀ a : Axis, |m.get a - q.get a| ≤ t := by
  unfold axisOkDistSq at h
  by_cases h1 : |m.x - q.x| > t
  · rw [if_pos h1] at h; cases h
  · rw [if_neg h1] at h
    by_cases h2 : |m.y - q.y| > t
    · rw [if_pos h2] at h; cases h
    · rw [if_neg h2] at h
      by_cases h3 : |m.z - q.z| > t
      · rw [if_pos h3] at h; cases h
      · rw [if_neg h3] at h
        refine ⟨(Option.some.inj h).symm, fun a => ?_⟩
        cases a
        · exact not_lt.mp h1
        · exact not_lt.mp h2
        · exact not_lt.mp h3

/-- With the selected vertex exactly on the mirror plane, the sign gate
rejects every vertex: the scan never changes its accumulator. -/
theorem scanCandidates_zero_pAx (t : ℚ) (ax : Axis) (m : Vec3) (i : Nat)
    (l : List (Nat × Vertex)) : ∀ b, scanCandidates t 0 ax m i l b = b := by
  induction l with
  | nil => intro b; rfl
  | cons jo rest ih =>
    intro b
    show List.foldl (stepCand t 0 ax m i) (stepCand t 0 ax m i b jo) rest = b
    have hstep : stepCand t 0 ax m i b jo = b := by
      unfold stepCand
      by_cases h1 : jo.1 = i ∨ jo.2.select = true
      · rw [if_pos h1]
      · rw [if_neg h1, if_pos (by rw [zero_mul])]
    rw [hstep]
    exact ih b

/-- Likewise, the accepted-candidate pool is empty on the plane. -/
theorem acceptedList_zero_pAx (t : ℚ) (ax : Axis) (m : Vec3) (i : Nat)
    (l : List (Nat × Vertex)) : acceptedList t 0 ax m i l = [] := by
  rw [acceptedList, List.filterMap_eq_nil_iff]
  intro jo _
  unfold candOf
  by_cases h1 : jo.1 = i ∨ jo.2.select = true
  · rw [if_pos h1]
  · rw [if_neg h1, if_pos (by rw [zero_mul])]

/-- An inner-loop step only looks at a vertex's index, selection flag and
(when unselected) position, so `VRel`-related vertices step identically. -/
theorem stepCand_congr (t pAx : ℚ) (ax : Axis) (m : Vec3) (i : Nat)
    (b : Option (ℚ × Vec3)) (k : Nat) (v w : Vertex) (hR : VRel v w) :
    stepCand t pAx ax m i b (k, v) = stepCand t pAx ax m i b (k, w) := by
  obtain ⟨hsel, hco⟩ := hR
  unfold stepCand
  dsimp only
  by_cases h1 : k = i ∨ w.select = true
  · rw [hsel, if_pos h1, if_pos h1]
  · have hw : w.select = false := by
      cases hws : w.select
      · rfl
      · exact absurd (Or.inr hws) h1
    rw [hsel, hco hw]

/-- Scans over two `VRel`-related meshes agree (over any common index
offset and any accumulator). -/
theorem scan_congr (t pAx : ℚ) (ax : Axis) (m : Vec3) (i : Nat) :
    ∀ (cur ws : List Vertex), List.Forall₂ VRel cur ws →
      ∀ (k : Nat) (b : Option (ℚ × Vec3)),
        scanCandidates t pAx ax m i (cur.enumFrom k) b
          = scanCandidates t pAx ax m i (ws.enumFrom k) b := by
  intro cur
  induction cur with
  | nil =>
    intro ws h k b
    cases h
    rfl
  | cons v cur' ih =>
    intro ws h k b
    cases ws with
    | nil => cases h
    | cons w ws' =>
      rw [List.forall₂_cons] at h
      obtain ⟨hR, hF⟩ := h
      rw [List.enumFrom_cons, List.enumFrom_cons]
      show scanCandidates t pAx ax m i (cur'.enumFrom (k + 1)) (stepCand t pAx ax m i b (k, v))
        = scanCandidates t pAx ax m i (ws'.enumFrom (k + 1)) (stepCand t pAx ax m i b (k, w))
      rw [stepCand_congr t pAx ax m i b k v w hR]
      exact ih ws' hF (k + 1) (stepCand t pAx ax m i b (k, w))

/-- `VRel` is reflexive, listwise. -/
theorem forallTwo_vrel_refl : ∀ l : List Vertex, List.Forall₂ VRel l l := by
  intro l
  induction l with
  | nil => exact List.Forall₂.nil
  | cons v rest ih => exact List.Forall₂.cons ⟨rfl, fun _ => rfl⟩ ih

/-- Setting an index to a vertex that is `VRel`-related to the original
preserves listwise `VRel`. -/
theorem forallTwo_vrel_set :
    ∀ {l₁ l₂ : List Vertex}, List.Forall₂ VRel l₁ l₂ →
      ∀ (i : Nat) (nv : Vertex), (∀ w, l₂[i]? = some w → VRel nv w) →
        List.Forall₂ VRel (l₁.set i nv) l₂ := by
  intro l₁ l₂ h
  induction h with
  | nil => intro i nv _; exact List.Forall₂.nil
  | cons hR hF ih =>
    intro i nv hcond
    cases i with
    | zero =>
      rw [List.set_cons_zero]
      exact List.Forall₂.cons (hcond _ (by simp)) hF
    | succ n =>
      rw [List.set_cons_succ]
      exact List.Forall₂.cons hR (ih n nv (fun w hw => hcond w (by simpa using hw)))

/-- Setting a held value back is the identity. -/
theorem set_self_of_getElem? {α : Type} :
    ∀ (l : List α) (i : Nat) (a : α), l[i]? = some a → l.set i a = l := by
  intro l
  induction l with
  | nil => intro i a h; cases h
  | cons x rest ih =>
    intro i a h
    cases i with
    | zero =>
      rw [List.set_cons_zero]
      simp only [List.getElem?_cons_zero] at h
      rw [Option.some.inj h]
    | succ n =>
      rw [List.set_cons_succ]
      simp only [List.getElem?_cons_succ] at h
      rw [ih n a h]

theorem applyAll_cons (ax : Axis) (t : ℚ) (vs c : List Vertex) (i : Nat) (l : List Nat) :
    applyAll ax t vs c (i :: l) = applyAll ax t vs (c.set i (snapResultAt ax t vs i)) l := rfl

theorem applyAll_length (ax : Axis) (t : ℚ) (vs : List Vertex) :
    ∀ (l : List Nat) (c : List Vertex), (applyAll ax t vs c l).length = c.length := by
  intro l
  induction l with
  | nil => intro c; rfl
  | cons i rest ih =>
    intro c
    rw [applyAll_cons, ih, List.length_set]

theorem applyAll_getElem?_notmem (ax : Axis) (t : ℚ) (vs : List Vertex) :
    ∀ (l : List Nat) (cs : List Vertex) (j : Nat), j ∉ l →
      (applyAll ax t vs cs l)[j]? = cs[j]? := by
  intro l
  induction l with
  | nil => intro cs j _; rfl
  | cons i rest ih =>
    intro cs j hj
    rw [applyAll_cons, ih _ _ (fun h => hj (List.mem_cons_of_mem i h)),
      List.getElem?_set_ne (by rintro rfl; exact hj (List.mem_cons_self i rest))]

theorem applyAll_getElem?_mem (ax : Axis) (t : ℚ) (vs : List Vertex) :
    ∀ (l : List Nat) (cs : List Vertex) (j : Nat), j ∈ l → l.Nodup → j < cs.length →
      (applyAll ax t vs cs l)[j]? = some (snapResultAt ax t vs j) := by
  intro l
  induction l with
  | nil => intro cs j hj _ _; cases hj
  | cons i rest ih =>
    intro cs j hj hnd hlt
    rw [List.nodup_cons] at hnd
    rw [applyAll_cons]
    rcases List.mem_cons.mp hj with rfl | hj'
    · rw [applyAll_getElem?_notmem ax t vs rest _ j hnd.1]
      exact List.getElem?_set_self hlt
    · exact ih _ j hj' hnd.2 (by rw [List.length_set]; exact hlt)

/-- Membership in the selected-index list. -/
theorem mem_selIdxs (vs : List Vertex) (j : Nat) :
    j ∈ selIdxs vs ↔ ∃ v, vs[j]? = some v ∧ v.select = true := by
  unfold selIdxs
  constructor
  · intro h
    obtain ⟨x, hx, hfst⟩ := List.mem_map.mp h
    obtain ⟨hmem, hsel⟩ := List.mem_filter.mp hx
    obtain ⟨k, v⟩ := x
    cases hfst
    exact ⟨v, List.mk_mem_enum_iff_getElem?.mp hmem, by simpa using hsel⟩
  · rintro ⟨v, hv, hsel⟩
    exact List.mem_map.mpr ⟨(j, v),
      List.mem_filter.mpr ⟨List.mk_mem_enum_iff_getElem?.mpr hv, by simpa using hsel⟩, rfl⟩

/-- The selected-index list has no duplicates. -/
theorem nodup_selIdxs (vs : List Vertex) : (selIdxs vs).Nodup := by
  have hsub : (selIdxs vs).Sublist (vs.enum.map Prod.fst) :=
    List.Sublist.map Prod.fst (List.filter_sublist vs.enum)
  rw [List.enum_map_fst] at hsub
  exact List.Nodup.sublist hsub (List.nodup_range vs.length)

/-- Main loop invariant of Snap to Symmetry: running the outer loop over a
duplicate-free list of still-untouched selected indices applies exactly the
predicted per-vertex updates and counts matches and misses of the scans
against the initial mesh.  (The scan of a later vertex cannot see the moves
of an earlier one: moved vertices are selected, and the scan skips selected
vertices.) -/
theorem snapLoop_spec (ax : Axis) (t : ℚ) (vs : List Vertex) :
    ∀ (l : List Nat) (cur : List Vertex) (m u : Nat),
      List.Forall₂ VRel cur vs →
      (∀ j ∈ l, cur[j]? = vs[j]?) →
      (∀ j ∈ l, ∃ v, vs[j]? = some v ∧ v.select = true) →
      l.Nodup →
      snapLoop ax t l (cur, m, u) =
        (applyAll ax t vs cur l,
         m + l.countP (fun k => (scanOn ax t vs k).isSome),
         u + l.countP (fun k => (scanOn ax t vs k).isNone)) := by
  intro l
  induction l with
  | nil =>
    intro cur m u _ _ _ _
    simp [snapLoop, applyAll, List.countP_nil]
  | cons i rest ih =>
    intro cur m u hF hagree hsel hnd
    obtain ⟨v, hv, hvsel⟩ := hsel i (List.mem_cons_self i rest)
    have hcuri : cur[i]? = some v := by
      rw [hagree i (List.mem_cons_self i rest), hv]
    have hgetD : vs.getD i vdefault = v := by
      rw [List.getD_eq_getElem?_getD, hv]; rfl
    have hscan : scanCandidates t (v.co.get ax) ax (mirror ax v.co) i cur.enum none
        = scanOn ax t vs i := by
      unfold scanOn
      rw [hgetD]
      exact scan_congr t (v.co.get ax) ax (mirror ax v.co) i cur vs hF 0 none
    rw [List.nodup_cons] at hnd
    have hagree' : ∀ nv : Vertex, ∀ j ∈ rest, (cur.set i nv)[j]? = vs[j]? := by
      intro nv j hj
      rw [List.getElem?_set_ne (by rintro rfl; exact hnd.1 hj),
        hagree j (List.mem_cons_of_mem i hj)]
    have hsel' : ∀ j ∈ rest, ∃ w, vs[j]? = some w ∧ w.select = true :=
      fun j hj => hsel j (List.mem_cons_of_mem i hj)
    cases hres : scanOn ax t vs i with
    | none =>
      have hone : snapOne ax t cur i = (cur, false) := by
        unfold snapOne
        rw [hcuri]
        dsimp only
        rw [hscan, hres]
      have hstep : snapLoop ax t (i :: rest) (cur, m, u)
          = snapLoop ax t rest (cur, m, u + 1) := by
        show (let r := snapOne ax t cur i;
              if r.2 then snapLoop ax t rest (r.1, m + 1, u)
              else snapLoop ax t rest (r.1, m, u + 1)) = _
        rw [hone]
        rfl
      have hsr : snapResultAt ax t vs i = v := by
        simp only [snapResultAt, hres, hgetD]
      have happ : applyAll ax t vs cur (i :: rest) = applyAll ax t vs cur rest := by
        rw [applyAll_cons, hsr, set_self_of_getElem? cur i v hcuri]
      have hcS : (i :: rest).countP (fun k => (scanOn ax t vs k).isSome)
          = rest.countP (fun k => (scanOn ax t vs k).isSome) := by
        rw [List.countP_cons]
        simp [hres]
      have hcN : (i :: rest).countP (fun k => (scanOn ax t vs k).isNone)
          = rest.countP (fun k => (scanOn ax t vs k).isNone) + 1 := by
        rw [List.countP_cons]
        simp [hres]
      rw [hstep, ih cur m (u + 1) hF (fun j hj => hagree j (List.mem_cons_of_mem i hj))
        hsel' hnd.2, happ, hcS, hcN]
      simp only [Prod.mk.injEq, true_and, and_true]
      omega
    | some dq =>
      have hone : snapOne ax t cur i
          = (cur.set i ⟨Vec3.set dq.2 ax (-(Vec3.get dq.2 ax)), v.select⟩, true) := by
        unfold snapOne
        rw [hcuri]
        dsimp only
        rw [hscan, hres]
      have hstep : snapLoop ax t (i :: rest) (cur, m, u)
          = snapLoop ax t rest
              (cur.set i ⟨Vec3.set dq.2 ax (-(Vec3.get dq.2 ax)), v.select⟩, m + 1, u) := by
        show (let r := snapOne ax t cur i;
              if r.2 then snapLoop ax t rest (r.1, m + 1, u)
              else snapLoop ax t rest (r.1, m, u + 1)) = _
        rw [hone]
        rfl
      have hsr : snapResultAt ax t vs i
          = ⟨Vec3.set dq.2 ax (-(Vec3.get dq.2 ax)), v.select⟩ := by
        simp only [snapResultAt, hres, hgetD]
      have hF' : List.Forall₂ VRel
          (cur.set i ⟨Vec3.set dq.2 ax (-(Vec3.get dq.2 ax)), v.select⟩) vs := by
        refine forallTwo_vrel_set hF i _ (fun w hw => ?_)
        rw [hv] at hw
        cases Option.some.inj hw
        exact ⟨rfl, fun hf => absurd (hf ▸ hvsel) Bool.false_ne_true⟩
      have happ : applyAll ax t vs cur (i :: rest)
          = applyAll ax t vs
              (cur.set i ⟨Vec3.set dq.2 ax (-(Vec3.get dq.2 ax)), v.select⟩) rest := by
        rw [applyAll_cons, hsr]
      have hcS : (i :: rest).countP (fun k => (scanOn ax t vs k).isSome)
          = rest.countP (fun k => (scanOn ax t vs k).isSome) + 1 := by
        rw [List.countP_cons]
        simp [hres]
      have hcN : (i :: rest).countP (fun k => (scanOn ax t vs k).isNone)
          = rest.countP (fun k => (scanOn ax t vs k).isNone) := by
        rw [List.countP_cons]
        simp [hres]
      rw [hstep, ih _ (m + 1) u hF' (hagree' _) hsel' hnd.2, happ, hcS, hcN]
      simp only [Prod.mk.injEq, true_and, and_true]
      omega

/-- Snap to Symmetry, summarised against the initial mesh: the final mesh
applies the predicted update at every selected index, and the two counters
count the selected vertices whose scan succeeded and failed. -/
theorem snapToSymmetry_run (ax : Axis) (t : ℚ) (vs : List Vertex) :
    snapToSymmetry ax t vs =
      (applyAll ax t vs vs (selIdxs vs),
       (selIdxs vs).countP (fun k => (scanOn ax t vs k).isSome),
       (selIdxs vs).countP (fun k => (scanOn ax t vs k).isNone)) := by
  unfold snapToSymmetry
  rw [snapLoop_spec ax t vs (selIdxs vs) vs 0 0 (forallTwo_vrel_refl vs)
    (fun _ _ => rfl) (fun j hj => (mem_selIdxs vs j).mp hj) (nodup_selIdxs vs)]
  simp

/-- The scan of vertex `i` against the fixed mesh is the first minimum of
its accepted-candidate list. -/
theorem scanOn_eq (ax : Axis) (t : ℚ) (vs : List Vertex) (i : Nat) :
    scanOn ax t vs i = chooseFirstMin none
      (acceptedList t ((vs.getD i vdefault).co.get ax) ax
        (mirror ax ((vs.getD i vdefault).co)) i vs.enum) := by
  unfold scanOn
  exact scanCandidates_eq_chooseFirstMin _ _ _ _ _ _ none

/-- Matched plus unmatched splits the scanned list. -/
theorem countP_isSome_add_isNone {β : Type} (f : Nat → Option β) :
    ∀ l : List Nat,
      l.countP (fun k => (f k).isSome) + l.countP (fun k => (f k).isNone) = l.length := by
  intro l
  induction l with
  | nil => rfl
  | cons a rest ih =>
    rw [List.countP_cons, List.countP_cons]
    cases h : f a <;> simp [h] <;> omega

/-- A selected index is in range. -/
theorem selIdxs_lt (vs : List Vertex) (i : Nat) (hsel : i ∈ selIdxs vs) :
    i < vs.length := by
  obtain ⟨v, hv, -⟩ := (mem_selIdxs vs i).mp hsel
  obtain ⟨hlt, -⟩ := List.getElem?_eq_some_iff.mp hv
  exact hlt

/-- A selected vertex whose scan failed is left exactly as it was. -/
theorem snap_unmatched_getD (ax : Axis) (t : ℚ) (vs : List Vertex) (i : Nat)
    (hsel : i ∈ selIdxs vs) (hnone : scanOn ax t vs i = none) :
    (snapToSymmetry ax t vs).1.getD i vdefault = vs.getD i vdefault := by
  rw [snapToSymmetry_run]
  dsimp only
  rw [List.getD_eq_getElem?_getD,
    applyAll_getElem?_mem ax t vs (selIdxs vs) vs i hsel (nodup_selIdxs vs)
      (selIdxs_lt vs i hsel),
    Option.getD_some]
  simp only [snapResultAt, hnone]

/-- A selected vertex whose scan failed contributes to the unmatched
counter. -/
theorem snap_unmatched_count_pos (ax : Axis) (t : ℚ) (vs : List Vertex) (i : Nat)
    (hsel : i ∈ selIdxs vs) (hnone : scanOn ax t vs i = none) :
    1 ≤ (snapToSymmetry ax t vs).2.2 := by
  rw [snapToSymmetry_run]
  dsimp only
  exact List.countP_pos_iff.mpr ⟨i, hsel, by rw [hnone]; rfl⟩

/-- Claim C2: in Snap to Symmetry, the vertex chosen as the match passed
every gate: it is a vertex of the mesh other than the selected one, it is
unselected, the product of its axis coordinate with the selected vertex's
axis coordinate is strictly negative, and each of its three coordinates is
within the threshold of the corresponding coordinate of the mirrored
position; no vertex failing one of these conditions is ever chosen. -/
theorem snap_candidate_gates (ax : Axis) (t : ℚ) (vs : List Vertex) (i : Nat)
    (d : ℚ) (q : Vec3) (hscan : scanOn ax t vs i = some (d, q)) :
    ∃ jo ∈ vs.enum, jo.1 ≠ i ∧ jo.2.select = false ∧
      ((vs.getD i vdefault).co.get ax) * (jo.2.co.get ax) < 0 ∧
      (∀ a : Axis, |(mirror ax ((vs.getD i vdefault).co)).get a - jo.2.co.get a| ≤ t) ∧
      q = jo.2.co := by
  rw [scanOn_eq] at hscan
  obtain ⟨pre, suf, hsplit, -, -⟩ := chooseFirstMin_none_spec _ _ hscan
  have hmem : (d, q) ∈ acceptedList t ((vs.getD i vdefault).co.get ax) ax
      (mirror ax ((vs.getD i vdefault).co)) i vs.enum := by
    rw [hsplit]
    exact List.mem_append_right _ (List.mem_cons_self _ _)
  obtain ⟨jo, hjo, hne, hselo, hsign, haok, hq⟩ :=
    mem_acceptedList _ _ _ _ _ _ _ _ hmem
  obtain ⟨-, haxes⟩ := axisOkDistSq_some _ _ _ _ haok
  exact ⟨jo, hjo, hne, hselo, hsign, haxes, hq⟩

theorem snap_candidate_gates_witness :
    scanOn Axis.X 1 demoPair 0 = some (0, ⟨-1, 0, 0⟩) ∧
    (∃ jo ∈ demoPair.enum, jo.1 ≠ 0 ∧ jo.2.select = false ∧
      ((demoPair.getD 0 vdefault).co.get Axis.X) * (jo.2.co.get Axis.X) < 0 ∧
      (∀ a : Axis,
        |(mirror Axis.X ((demoPair.getD 0 vdefault).co)).get a - jo.2.co.get a| ≤ 1) ∧
      (⟨-1, 0, 0⟩ : Vec3) = jo.2.co) := by
  have h : scanOn Axis.X 1 demoPair 0 = some (0, ⟨-1, 0, 0⟩) := by
    norm_num [scanOn, scanCandidates, stepCand, axisOkDistSq, distSq, mirror,
      Vec3.get, Vec3.set, demoPair, vdefault, List.enum, List.enumFrom]
  exact ⟨h, snap_candidate_gates Axis.X 1 demoPair 0 0 ⟨-1, 0, 0⟩ h⟩

/-- Claim C3: when the scan of a selected vertex succeeds, the chosen pair
is an accepted candidate of minimum (squared) Euclidean distance from the
mirrored position - the first such on ties - and the vertex's new position
is the candidate's position with the axis coordinate negated. -/
theorem snap_first_min_and_mirror_write (ax : Axis) (t : ℚ) (vs : List Vertex)
    (i : Nat) (d : ℚ) (q : Vec3) (hsel : i ∈ selIdxs vs)
    (hscan : scanOn ax t vs i = some (d, q)) :
    (∃ pre suf,
        acceptedList t ((vs.getD i vdefault).co.get ax) ax
            (mirror ax ((vs.getD i vdefault).co)) i vs.enum = pre ++ (d, q) :: suf ∧
        (∀ e ∈ pre, d < e.1) ∧ (∀ e ∈ suf, d ≤ e.1)) ∧
    d = distSq (mirror ax ((vs.getD i vdefault).co)) q ∧
    ((snapToSymmetry ax t vs).1.getD i vdefault).co = Vec3.set q ax (-(Vec3.get q ax)) := by
  refine ⟨?_, ?_, ?_⟩
  · rw [scanOn_eq] at hscan
    obtain ⟨pre, suf, hsplit, hpre, hsuf⟩ := chooseFirstMin_none_spec _ _ hscan
    exact ⟨pre, suf, hsplit, hpre, hsuf⟩
  · rw [scanOn_eq] at hscan
    obtain ⟨pre, suf, hsplit, -, -⟩ := chooseFirstMin_none_spec _ _ hscan
    have hmem : (d, q) ∈ acceptedList t ((vs.getD i vdefault).co.get ax) ax
        (mirror ax ((vs.getD i vdefault).co)) i vs.enum := by
      rw [hsplit]
      exact List.mem_append_right _ (List.mem_cons_self _ _)
    obtain ⟨jo, -, -, -, -, haok, hq⟩ := mem_acceptedList _ _ _ _ _ _ _ _ hmem
    obtain ⟨hd, -⟩ := axisOkDistSq_some _ _ _ _ haok
    rw [hq]
    exact hd
  · rw [snapToSymmetry_run]
    dsimp only
    rw [List.getD_eq_getElem?_getD,
      applyAll_getElem?_mem ax t vs (selIdxs vs) vs i hsel (nodup_selIdxs vs)
        (selIdxs_lt vs i hsel),
      Option.getD_some]
    simp only [snapResultAt, hscan]

/-- Claim C4: a selected vertex with no accepted candidate is not an error:
the operation still finishes, that vertex is left untouched, it counts
toward the unmatched counter (matched plus unmatched exhausts the
selection), and both counters are reported in the message. -/
theorem snap_no_match_not_error (ax : Axis) (t : ℚ) (vs : List Vertex) (i : Nat)
    (hsel : i ∈ selIdxs vs) (hnone : scanOn ax t vs i = none) :
    (snapToSymmetryOp ax t vs).1 = OpStatus.FINISHED ∧
    (snapToSymmetryOp ax t vs).2.2.getD i vdefault = vs.getD i vdefault ∧
    1 ≤ (snapToSymmetry ax t vs).2.2 ∧
    (snapToSymmetry ax t vs).2.1 + (snapToSymmetry ax t vs).2.2 = (selIdxs vs).length ∧
    (snapToSymmetryOp ax t vs).2.1 =
      "Snapped " ++ toString (snapToSymmetry ax t vs).2.1 ++ " vertices. " ++
        toString (snapToSymmetry ax t vs).2.2 ++
        " vertices had no match within threshold." := by
  have hne : selIdxs vs ≠ [] := List.ne_nil_of_mem hsel
  have hop : snapToSymmetryOp ax t vs =
      (OpStatus.FINISHED,
       "Snapped " ++ toString (snapToSymmetry ax t vs).2.1 ++ " vertices. " ++
         toString (snapToSymmetry ax t vs).2.2 ++
         " vertices had no match within threshold.",
       (snapToSymmetry ax t vs).1) := by
    unfold snapToSymmetryOp
    rw [if_neg hne]
  refine ⟨by rw [hop], ?_, snap_unmatched_count_pos ax t vs i hsel hnone, ?_, by rw [hop]⟩
  · rw [hop]
    exact snap_unmatched_getD ax t vs i hsel hnone
  · rw [snapToSymmetry_run]
    dsimp only
    exact countP_isSome_add_isNone _ (selIdxs vs)

theorem snap_no_match_not_error_witness :
    (0 ∈ selIdxs demoLone) ∧
    scanOn Axis.X 1 demoLone 0 = none ∧
    ((snapToSymmetryOp Axis.X 1 demoLone).1 = OpStatus.FINISHED ∧
     (snapToSymmetryOp Axis.X 1 demoLone).2.2.getD 0 vdefault = demoLone.getD 0 vdefault ∧
     1 ≤ (snapToSymmetry Axis.X 1 demoLone).2.2 ∧
     (snapToSymmetry Axis.X 1 demoLone).2.1 + (snapToSymmetry Axis.X 1 demoLone).2.2
       = (selIdxs demoLone).length ∧
     (snapToSymmetryOp Axis.X 1 demoLone).2.1 =
       "Snapped " ++ toString (snapToSymmetry Axis.X 1 demoLone).2.1 ++ " vertices. " ++
         toString (snapToSymmetry Axis.X 1 demoLone).2.2 ++
         " vertices had no match within threshold.") := by
  have h1 : (0 : Nat) ∈ selIdxs demoLone := by decide
  have h2 : scanOn Axis.X 1 demoLone 0 = none := by decide
  exact ⟨h1, h2, snap_no_match_not_error Axis.X 1 demoLone 0 h1 h2⟩

/-- Claim C9: a selected vertex lying exactly on the mirror plane has an
empty candidate pool (the sign gate rejects every other vertex), so its
scan fails, it is always counted unmatched and its entry is left
untouched, whatever the rest of the mesh is. -/
theorem snap_plane_vertex_unmatched (ax : Axis) (t : ℚ) (vs : List Vertex) (i : Nat)
    (hsel : i ∈ selIdxs vs) (hzero : (vs.getD i vdefault).co.get ax = 0) :
    acceptedList t ((vs.getD i vdefault).co.get ax) ax
        (mirror ax ((vs.getD i vdefault).co)) i vs.enum = [] ∧
    scanOn ax t vs i = none ∧
    (snapToSymmetry ax t vs).1.getD i vdefault = vs.getD i vdefault ∧
    1 ≤ (snapToSymmetry ax t vs).2.2 := by
  have hnone : scanOn ax t vs i = none := by
    show scanCandidates t ((vs.getD i vdefault).co.get ax) ax
      (mirror ax ((vs.getD i vdefault).co)) i vs.enum none = none
    rw [hzero]
    exact scanCandidates_zero_pAx t ax _ i vs.enum none
  refine ⟨?_, hnone, snap_unmatched_getD ax t vs i hsel hnone,
    snap_unmatched_count_pos ax t vs i hsel hnone⟩
  rw [hzero]
  exact acceptedList_zero_pAx t ax _ i vs.enum

theorem snap_plane_vertex_unmatched_witness :
    (0 ∈ selIdxs demoPlane) ∧
    (demoPlane.getD 0 vdefault).co.get Axis.X = 0 ∧
    (acceptedList 1 ((demoPlane.getD 0 vdefault).co.get Axis.X) Axis.X
        (mirror Axis.X ((demoPlane.getD 0 vdefault).co)) 0 demoPlane.enum = [] ∧
     scanOn Axis.X 1 demoPlane 0 = none ∧
     (snapToSymmetry Axis.X 1 demoPlane).1.getD 0 vdefault = demoPlane.getD 0 vdefault ∧
     1 ≤ (snapToSymmetry Axis.X 1 demoPlane).2.2) := by
  have h1 : (0 : Nat) ∈ selIdxs demoPlane := by decide
  have h2 : (demoPlane.getD 0 vdefault).co.get Axis.X = 0 := by decide
  exact ⟨h1, h2, snap_plane_vertex_unmatched Axis.X 1 demoPlane 0 h1 h2⟩

/-- Claim C8, counterexample: on the two-vertex mesh with A(1,0,0) selected
and B(-1,0,0) unselected, axis X and threshold 1/10, the reported message
is not the string the claim quotes - the code's message ends with
" within threshold.". -/
theorem snap_demo_message_counterexample :
    (snapToSymmetryOp Axis.X (1/10) demoPair).2.1
      ≠ "Snapped 1 vertices. 0 vertices had no match." := by
  have h : (snapToSymmetryOp Axis.X (1/10) demoPair).2.1
      = "Snapped 1 vertices. 0 vertices had no match within threshold." := by
    norm_num [snapToSymmetryOp, snapToSymmetry, selIdxs, snapLoop, snapOne,
      scanCandidates, stepCand, axisOkDistSq, distSq, mirror, Vec3.get, Vec3.set,
      demoPair, vdefault, List.enum, List.enumFrom]
    decide
  rw [h]
  decide

/-- Claim C8, amended: on the two-vertex mesh with A(1,0,0) selected and
B(-1,0,0) unselected, axis X and threshold 1/10, Snap to Symmetry matches A
to B (the scan returns B at squared distance 0), moves A to (1,0,0) - the
mirror of B - counts 1 matched and 0 unmatched, finishes, and reports
"Snapped 1 vertices. 0 vertices had no match within threshold.". -/
theorem snap_demo_end_to_end :
    scanOn Axis.X (1/10) demoPair 0 = some (0, ⟨-1, 0, 0⟩) ∧
    (snapToSymmetryOp Axis.X (1/10) demoPair).1 = OpStatus.FINISHED ∧
    ((snapToSymmetryOp Axis.X (1/10) demoPair).2.2.getD 0 vdefault).co = ⟨1, 0, 0⟩ ∧
    (snapToSymmetry Axis.X (1/10) demoPair).2.1 = 1 ∧
    (snapToSymmetry Axis.X (1/10) demoPair).2.2 = 0 ∧
    (snapToSymmetryOp Axis.X (1/10) demoPair).2.1
      = "Snapped 1 vertices. 0 vertices had no match within threshold." := by
  refine ⟨?_, ?_, ?_, ?_, ?_, ?_⟩ <;>
    (norm_num [snapToSymmetryOp, snapToSymmetry, scanOn, selIdxs, snapLoop, snapOne,
      scanCandidates, stepCand, axisOkDistSq, distSq, mirror, Vec3.get, Vec3.set,
      demoPair, vdefault, List.enum, List.enumFrom]
     try decide)

theorem Vec3.get_set_self (p : Vec3) (ax : Axis) (a : ℚ) : (p.set ax a).get ax = a := by
  cases ax <;> rfl

theorem Vec3.get_set_other (p : Vec3) (ax : Axis) (a : ℚ) (b : Axis) (h : b ≠ ax) :
    (p.set ax a).get b = p.get b := by
  cases ax <;> cases b <;> first | rfl | exact absurd rfl h

theorem Vec3.set_set (p : Vec3) (ax : Axis) (a b : ℚ) :
    (p.set ax a).set ax b = p.set ax b := by
  cases ax <;> rfl

theorem snapToMiddle_getElem? (ax : Axis) (vs : List Vertex) (i : Nat) :
    (snapToMiddle ax vs)[i]? =
      (vs[i]?).map (fun v => if v.select then ⟨v.co.set ax 0, v.select⟩ else v) := by
  simp [snapToMiddle, List.getElem?_map]

/-- A map that preserves selection flags preserves the selected-index
list. -/
theorem selIdxs_map (g : Vertex → Vertex) (hg : ∀ v, (g v).select = v.select)
    (vs : List Vertex) : selIdxs (vs.map g) = selIdxs vs := by
  unfold selIdxs
  rw [List.enum_map, List.filter_map, List.map_map]
  have h1 : (Prod.fst ∘ Prod.map id g : Nat × Vertex → Nat) = Prod.fst := by
    funext jv; cases jv; rfl
  have h2 : ((fun jv => jv.2.select) ∘ Prod.map (@id Nat) g)
      = fun jv : Nat × Vertex => jv.2.select := by
    funext jv
    cases jv with
    | mk a b => simp [Prod.map, hg b]
  rw [h1, h2]

theorem snapToMiddle_select_eq (ax : Axis) (v : Vertex) :
    ((if v.select then (⟨v.co.set ax 0, v.select⟩ : Vertex) else v)).select = v.select := by
  by_cases h : v.select <;> simp [h]

theorem selIdxs_snapToMiddle (ax : Axis) (vs : List Vertex) :
    selIdxs (snapToMiddle ax vs) = selIdxs vs :=
  selIdxs_map _ (snapToMiddle_select_eq ax) vs

theorem snapToMiddle_idem_core (ax : Axis) (vs : List Vertex) :
    snapToMiddle ax (snapToMiddle ax vs) = snapToMiddle ax vs := by
  unfold snapToMiddle
  rw [List.map_map]
  apply List.map_congr_left
  intro v _
  by_cases h : v.select <;> simp [Function.comp, h, Vec3.set_set]

/-- Claim C7: Snap to Middle is idempotent - running the operation twice
returns the same mesh as running it once - and a single run sets the axis
coordinate of every selected vertex to exactly 0, leaves its other two
coordinates unchanged, and leaves unselected vertices entirely
untouched. -/
theorem snap_to_middle_idempotent (ax : Axis) (vs : List Vertex) :
    (snapToMiddleOp ax (snapToMiddleOp ax vs).2.2).2.2 = (snapToMiddleOp ax vs).2.2 ∧
    ∀ i : Nat,
      ((vs.getD i vdefault).select = true →
        ((snapToMiddle ax vs).getD i vdefault).co.get ax = 0 ∧
        ∀ a : Axis, a ≠ ax →
          ((snapToMiddle ax vs).getD i vdefault).co.get a
            = (vs.getD i vdefault).co.get a) ∧
      ((vs.getD i vdefault).select = false →
        (snapToMiddle ax vs).getD i vdefault = vs.getD i vdefault) := by
  constructor
  · by_cases hsel : selIdxs vs = []
    · have hov : (snapToMiddleOp ax vs).2.2 = vs := by
        unfold snapToMiddleOp
        rw [if_pos hsel]
      rw [hov]
      exact hov
    · have hov : (snapToMiddleOp ax vs).2.2 = snapToMiddle ax vs := by
        unfold snapToMiddleOp
        rw [if_neg hsel]
      have hsel2 : selIdxs (snapToMiddle ax vs) ≠ [] := by
        rw [selIdxs_snapToMiddle]
        exact hsel
      have hov2 : (snapToMiddleOp ax (snapToMiddle ax vs)).2.2
          = snapToMiddle ax (snapToMiddle ax vs) := by
        unfold snapToMiddleOp
        rw [if_neg hsel2]
      rw [hov, hov2, snapToMiddle_idem_core]
  · intro i
    constructor
    · intro hs
      rw [List.getD_eq_getElem?_getD] at hs
      cases hv : vs[i]? with
      | none => rw [hv] at hs; cases hs
      | some v =>
        rw [hv, Option.getD_some] at hs
        rw [List.getD_eq_getElem?_getD, snapToMiddle_getElem?, hv, Option.map_some',
          Option.getD_some, List.getD_eq_getElem?_getD, hv, Option.getD_some,
          if_pos hs]
        exact ⟨Vec3.get_set_self v.co ax 0,
          fun a ha => Vec3.get_set_other v.co ax 0 a ha⟩
    · intro hs
      rw [List.getD_eq_getElem?_getD] at hs
      cases hv : vs[i]? with
      | none =>
        rw [List.getD_eq_getElem?_getD, snapToMiddle_getElem?, hv,
          List.getD_eq_getElem?_getD, hv]
        rfl
      | some v =>
        rw [hv, Option.getD_some] at hs
        rw [List.getD_eq_getElem?_getD, snapToMiddle_getElem?, hv, Option.map_some',
          Option.getD_some, List.getD_eq_getElem?_getD, hv, Option.getD_some,
          if_neg (by simp [hs])]

theorem snap_to_middle_idempotent_witness :
    (demoPair.getD 0 vdefault).select = true ∧
    (demoPair.getD 1 vdefault).select = false ∧
    ((snapToMiddleOp Axis.X (snapToMiddleOp Axis.X demoPair).2.2).2.2
      = (snapToMiddleOp Axis.X demoPair).2.2 ∧
     ((snapToMiddle Axis.X demoPair).getD 0 vdefault).co.get Axis.X = 0 ∧
     (snapToMiddle Axis.X demoPair).getD 1 vdefault = demoPair.getD 1 vdefault) :=
  ⟨by decide, by decide,
   (snap_to_middle_idempotent Axis.X demoPair).1,
   (((snap_to_middle_idempotent Axis.X demoPair).2 0).1 (by decide)).1,
   ((snap_to_middle_idempotent Axis.X demoPair).2 1).2 (by decide)⟩

theorem snap_first_min_and_mirror_write_witness :
    (0 ∈ selIdxs demoPair) ∧
    scanOn Axis.X 1 demoPair 0 = some (0, ⟨-1, 0, 0⟩) ∧
    ((∃ pre suf,
        acceptedList 1 ((demoPair.getD 0 vdefault).co.get Axis.X) Axis.X
            (mirror Axis.X ((demoPair.getD 0 vdefault).co)) 0 demoPair.enum
          = pre ++ ((0 : ℚ), (⟨-1, 0, 0⟩ : Vec3)) :: suf ∧
        (∀ e ∈ pre, (0 : ℚ) < e.1) ∧ (∀ e ∈ suf, (0 : ℚ) ≤ e.1)) ∧
     (0 : ℚ) = distSq (mirror Axis.X ((demoPair.getD 0 vdefault).co)) ⟨-1, 0, 0⟩ ∧
     ((snapToSymmetry Axis.X 1 demoPair).1.getD 0 vdefault).co
       = Vec3.set ⟨-1, 0, 0⟩ Axis.X (-(Vec3.get ⟨-1, 0, 0⟩ Axis.X))) := by
  have h1 : (0 : Nat) ∈ selIdxs demoPair := by decide
  have h2 : scanOn Axis.X 1 demoPair 0 = some (0, ⟨-1, 0, 0⟩) := by
    norm_num [scanOn, scanCandidates, stepCand, axisOkDistSq, distSq, mirror,
      Vec3.get, Vec3.set, demoPair, vdefault, List.enum, List.enumFrom]
  exact ⟨h1, h2, snap_first_min_and_mirror_write Axis.X 1 demoPair 0 0 ⟨-1, 0, 0⟩ h1 h2⟩
